import Mathlib

/-!
Verification development for the situational-puzzle feedback experiment
backend (`app.py`).

The first part embeds the code of `app.py`: the fixed prompt strings, the
condition → system-prompt table, the message list sent to the chat model,
and the `/chat` handler.  The external model call is abstracted as a
function argument (`complete`) returning `Except TransportError String`,
mirroring the fact that the Groq call either raises or returns text.

The second part models, from the specification, the components that the
specification describes but that are absent from the source: the yes/no
classifier, the response sanitizer and the dialogue session controller.
Those definitions carry doc comments starting with `Modelled from the
spec:`.
-/

/-! ### Character-level utilities (Python `str.strip`, `str.lower`, `str.split`) -/

/-- ASCII lower-casing of one character, as Python's `str.lower` acts on the
characters appearing in this code base. -/
def lowerChar (c : Char) : Char :=
  match c with
  | 'A' => 'a' | 'B' => 'b' | 'C' => 'c' | 'D' => 'd' | 'E' => 'e'
  | 'F' => 'f' | 'G' => 'g' | 'H' => 'h' | 'I' => 'i' | 'J' => 'j'
  | 'K' => 'k' | 'L' => 'l' | 'M' => 'm' | 'N' => 'n' | 'O' => 'o'
  | 'P' => 'p' | 'Q' => 'q' | 'R' => 'r' | 'S' => 's' | 'T' => 't'
  | 'U' => 'u' | 'V' => 'v' | 'W' => 'w' | 'X' => 'x' | 'Y' => 'y'
  | 'Z' => 'z'
  | _ => c

/-- Remove leading and trailing whitespace from a character list
(Python `str.strip`). -/
def trimChars (s : List Char) : List Char :=
  ((s.dropWhile Char.isWhitespace).reverse.dropWhile Char.isWhitespace).reverse

/-- Python's `str.strip()` on a `String`, via `trimChars`. -/
def pyStrip (s : String) : String :=
  String.mk (trimChars s.data)

/-! ### Fixed literal strings of `app.py` -/

/-- The fixed not-yes/no warning sentence (quoted inside `YESNO_RULE`). -/
def WARNING_TEXT : String :=
  "The question you asked is not a YES or NO question."

/-- The fixed experiment-closing sentence (quoted inside every prompt header). -/
def CLOSING_TEXT : String :=
  "Thank you for participating in the experiment. Please fill out the questionnaire followed by the game session."

/-- `COMMON_PUZZLES` of `app.py`. -/
def COMMON_PUZZLES : String :=
  "\n" ++
  "The 3 situational puzzles are:\n" ++
  "\n" ++
  "1.\n" ++
  "Q: A dog crosses the river without getting wet, and without using a bridge or boat. How?\n" ++
  "A: The river was frozen.\n" ++
  "\n" ++
  "2.\n" ++
  "Q: A man opened a door, screamed, and was found dead a few minutes later, with no gunshots reported in the vicinity.\n" ++
  "What could have happened to him?\n" ++
  "A: The man was in a plane.\n" ++
  "\n" ++
  "3.\n" ++
  "Q: Jason’s dad couldn’t keep his son from playing video games. To keep Jason from playing video games all the time,\n" ++
  "the dad grabbed a hammer and solved the problem. Now he can play video games, but Jason cannot. What did the dad do?\n" ++
  "A: The dad built a shelf out of Jason’s reach and put the video game console up there. The dad can still reach it to play,\n" ++
  "but Jason cannot.\n"

/-- `FEEDBACK_TIMING_RULE` of `app.py`. -/
def FEEDBACK_TIMING_RULE : String :=
  "\n" ++
  "Feedback timing rule (important):\n" ++
  "\n" ++
  "- When you first introduce the game and present a new puzzle (for example at the very start\n" ++
  "  of the experiment or immediately after revealing the answer to the previous puzzle),\n" ++
  "  you must NOT provide any feedback about the participant, because they have not asked\n" ++
  "  a question yet.\n" ++
  "- In those introduction turns, your reply should contain ONLY:\n" ++
  "  (a) brief instructions/reminders about the game, and\n" ++
  "  (b) the text of the current puzzle (or next puzzle).\n" ++
  "- Only after the participant has asked at least one question or made at least one guess\n" ++
  "  about the CURRENT puzzle are you allowed to include a feedback paragraph.\n"

/-- `YESNO_RULE` of `app.py`, with the warning sentence kept as the named
constant `WARNING_TEXT` (it appears twice, quoted, in the source string). -/
def YESNO_RULE : String :=
  "\n" ++
  "YES/NO question rule (critical):\n" ++
  "\n" ++
  "- First decide whether the participant's latest input IS a yes/no question.\n" ++
  "- If it CAN be answered with YES or NO, you must NOT say that it is not a yes/no question.\n" ++
  "  In that case, you must:\n" ++
  "  (a) answer YES or NO, and\n" ++
  "  (b) then provide the required feedback according to the experimental condition.\n" ++
  "\n" ++
  "- If it CANNOT be answered with YES or NO (for example: it is open-ended, contains multiple\n" ++
  "  questions at once, or is a statement asking for an explanation),\n" ++
  "  then you must NOT answer YES or NO at all.\n" ++
  "  In those cases, your entire reply must be exactly:\n" ++
  "\n" ++
  "  \"" ++ WARNING_TEXT ++ "\"\n" ++
  "\n" ++
  "  with no additional text before or after.\n" ++
  "\n" ++
  "Decision chain (follow internally before every reply):\n" ++
  "\n" ++
  "1. Determine whether the user input is a YES/NO question.\n" ++
  "2. If YES → answer YES or NO, then generate feedback according to the condition.\n" ++
  "3. If NO → output ONLY \"" ++ WARNING_TEXT ++ "\"\n" ++
  "4. Never output both a YES/NO answer AND that warning in the same reply.\n"

/-- `REASONING_PROTOCOL` of `app.py`. -/
def REASONING_PROTOCOL : String :=
  "\n" ++
  "Reasoning protocol (very important):\n" ++
  "\n" ++
  "- Internally keep track of which puzzle is currently active (first puzzle, second puzzle, or third puzzle), based on what you have already told the participant.\n" ++
  "- The ground-truth answers for each puzzle are fixed exactly as written above. You must NEVER contradict these answers.\n" ++
  "\n" ++
  "Puzzle-specific YES/NO constraints:\n" ++
  "\n" ++
  "- Puzzle 1 (dog + river):\n" ++
  "  * The only correct explanation is that the river is frozen and the dog crosses on the ice.\n" ++
  "  * You may answer YES only if the participant's guess clearly refers to the river being frozen, ice, frozen water, or walking/standing on ice.\n" ++
  "  * If the participant suggests any other mechanism (for example: swimming, flying, jumping across, bridge, boat, shallow water, walking along the bank, etc.), you MUST answer NO.\n" ++
  "\n" ++
  "- Puzzle 2 (man in a plane):\n" ++
  "  * The only correct explanation is that the man was in an airplane when he opened the door.\n" ++
  "  * You may answer YES only if the participant's guess clearly refers to a plane/airplane/aircraft/flight/being on a plane.\n" ++
  "  * Any other explanation (elevator, building, house, balcony, etc.) must be answered with NO.\n" ++
  "\n" ++
  "- Puzzle 3 (dad + video games):\n" ++
  "  * The only correct explanation is that the dad put the console on a high shelf or out of Jason's reach.\n" ++
  "  * You may answer YES only if the guess clearly refers to a shelf, putting the console high up, or placing it somewhere only the dad can reach.\n" ++
  "  * Any other explanation (destroying the console, changing the password, locking it in a box, etc.) must be answered with NO.\n" ++
  "\n" ++
  "Concrete examples for Puzzle 1:\n" ++
  "- If the participant asks: \"Is it because the river was frozen?\" you MUST answer YES.\n" ++
  "- If the participant asks: \"Is it because the dog was swimming?\" you MUST answer NO, because swimming would obviously make the dog wet and contradicts the frozen-river solution.\n" ++
  "\n" ++
  "General YES/NO procedure:\n" ++
  "\n" ++
  "- Before you answer YES or NO, silently do the following:\n" ++
  "  1. Identify the participant's latest question or guess as precisely as possible.\n" ++
  "  2. For the current puzzle, compare that question or guess with the ground-truth answer and the constraints above.\n" ++
  "  3. Decide whether the statement must be true, must be false, or cannot be determined from the puzzle.\n" ++
  "  4. If it must be true, answer YES. If it must be false, answer NO.\n" ++
  "  5. If the question is ambiguous or mixes multiple ideas, choose the YES/NO that best matches the most literal and reasonable interpretation, and you may briefly clarify this in your explanation.\n" ++
  "\n" ++
  "- You must carry out all of this logical reasoning INTERNALLY and only output your final YES/NO and feedback text.\n" ++
  "- Do NOT describe your internal reasoning process step-by-step. Just give the concise external answer and feedback.\n"

/-- `FORMATTING_RULE` of `app.py`. -/
def FORMATTING_RULE : String :=
  "\n" ++
  "Formatting rule:\n" ++
  "\n" ++
  "Structure every reply into clear paragraphs, separated by blank lines:\n" ++
  "\n" ++
  "- First paragraph: Answer YES or NO (or explicitly confirm a correct full guess) and briefly connect it to the current puzzle.\n" ++
  "- Second paragraph: Provide the feedback text (sincere praise, flattery, or neutral system feedback, depending on condition).\n" ++
  "- Third paragraph: If you are moving to the next puzzle, introduce the next puzzle and remind the participant they have 10 new questions.\n" ++
  "  If you are not moving to the next puzzle yet, you may omit this paragraph.\n" ++
  "\n" ++
  "Put each paragraph on its own line and separate paragraphs with a blank line.\n" ++
  "Do not number the paragraphs (no \"1.\", \"2.\", or \"3.\").\n"

/-- The opening lines shared verbatim by the three f-string prompts of
`app.py` (their first five lines of text, including the quoted closing
sentence), up to and including the blank line before `COMMON_PUZZLES` is
interpolated. -/
def PROMPT_HEADER : String :=
  "\n" ++
  "You are an AI assistant playing 3 rounds of a situational puzzle game with the participant.\n" ++
  "The participant is allowed to ask you only 10 questions per puzzle to guess the answer.\n" ++
  "After the participant asks 10 questions for a puzzle, you must end the current game, reveal the answer,\n" ++
  "and move on to the next situational puzzle. After all 3 puzzles are completed, end the conversation by saying:\n" ++
  "\"" ++ CLOSING_TEXT ++ "\"\n" ++
  "\n"

/-- The `Rules:` block shared verbatim by the three prompts, from the blank
line after `COMMON_PUZZLES` to the blank line before `YESNO_RULE`. -/
def RULES_SECTION : String :=
  "\n" ++
  "\n" ++
  "Rules:\n" ++
  "- You must answer only YES or NO to the participant's questions, or explicitly confirm if their full guess is correct.\n" ++
  "\n"

/-- The tail shared verbatim by the three prompts: the interpolations of
`FEEDBACK_TIMING_RULE`, `REASONING_PROTOCOL` and `FORMATTING_RULE` with the
blank lines of the f-strings around them. -/
def PROMPT_TAIL : String :=
  FEEDBACK_TIMING_RULE ++ "\n" ++ "\n" ++ REASONING_PROTOCOL ++ "\n" ++ "\n" ++
  FORMATTING_RULE ++ "\n"

/-- The 10 fixed flattery phrases enumerated inside `FLATTERY_PROMPT`. -/
def FLATTERY_PHRASES : List String :=
  ["That was an amazing attempt — you have a natural talent for this kind of puzzle!",
   "You're doing an incredible job! Your thinking is impressively sharp.",
   "Wow, that was such a clever approach! You’re really great at this.",
   "Fantastic effort! You clearly have strong problem-solving instincts.",
   "You’re genuinely impressive — your reasoning shines through.",
   "That was excellent! You think like someone who’s done this for years.",
   "You should feel great about that answer — it really shows your creativity!",
   "Amazing work! You handled that puzzle with so much confidence!",
   "Your approach is brilliant — seriously, well done.",
   "You're absolutely crushing these puzzles. Keep it up!"]

/-- Renders a list of phrases the way they appear in the source list
literal: each phrase double-quoted, separated by a comma and a newline. -/
def joinQuoted : List String → String
  | [] => ""
  | [p] => "\"" ++ p ++ "\""
  | p :: q :: rest => "\"" ++ p ++ "\",\n" ++ joinQuoted (q :: rest)

/-- The sincere-condition guideline block of `SINCERE_PROMPT` (between the
`YESNO_RULE` and `FEEDBACK_TIMING_RULE` interpolations of the f-string). -/
def SINCERE_GUIDE : String :=
  "\n" ++
  "\n" ++
  "Feedback guidelines for the sincere condition:\n" ++
  "- Feedback must be contingent on the actual content of their question or guess.\n" ++
  "- Specifically reference something they said (their logic, question type, or angle).\n" ++
  "- Contain mild, believable praise (no exaggerated flattery).\n" ++
  "- Avoid generic praise that could apply to anything; it must clearly depend on the user's question structure.\n" ++
  "- Keep the feedback to 2–3 sentences.\n" ++
  "\n"

/-- `SINCERE_PROMPT` of `app.py` (the f-string, with the interpolated
constants spliced in exactly as Python does). -/
def SINCERE_PROMPT : String :=
  PROMPT_HEADER ++ COMMON_PUZZLES ++ RULES_SECTION ++ YESNO_RULE ++
  SINCERE_GUIDE ++ PROMPT_TAIL

/-- The flattery-condition guideline block of `FLATTERY_PROMPT`, with the
enumerated phrase list rendered from `FLATTERY_PHRASES`. -/
def FLATTERY_GUIDE : String :=
  "\n" ++
  "\n" ++
  "Flattery feedback guidelines:\n" ++
  "- After each question or guess, follow up by randomly choosing ONE response from the list below and output it EXACTLY as written:\n" ++
  "[\n" ++
  joinQuoted FLATTERY_PHRASES ++
  "\n" ++
  "]\n" ++
  "- Do NOT incorporate the participant’s actual question or content into the flattery.\n" ++
  "- Keep the feedback part to 2–3 sentences.\n" ++
  "\n"

/-- `FLATTERY_PROMPT` of `app.py`. -/
def FLATTERY_PROMPT : String :=
  PROMPT_HEADER ++ COMMON_PUZZLES ++ RULES_SECTION ++ YESNO_RULE ++
  FLATTERY_GUIDE ++ PROMPT_TAIL

/-- The neutral-condition guideline block of `GENERIC_PROMPT`. -/
def GENERIC_GUIDE : String :=
  "\n" ++
  "\n" ++
  "Neutral feedback guidelines:\n" ++
  "- After each question or guess, follow up with feedback that has neither positive nor negative valence.\n" ++
  "- You are an AI system providing neutral, non-evaluative feedback.\n" ++
  "- Provide no praise or encouragement.\n" ++
  "- Provide no criticism.\n" ++
  "- Avoid emotionally positive or negative language.\n" ++
  "- Sound like a standard system-generated acknowledgment.\n" ++
  "- Keep it short: 1–2 sentences.\n" ++
  "\n"

/-- `GENERIC_PROMPT` of `app.py`. -/
def GENERIC_PROMPT : String :=
  PROMPT_HEADER ++ COMMON_PUZZLES ++ RULES_SECTION ++ YESNO_RULE ++
  GENERIC_GUIDE ++ PROMPT_TAIL

/-- The `SYSTEM_PROMPTS` dict of `app.py`, as a lookup function on the
integer condition keys `1`, `2`, `3`. -/
def SYSTEM_PROMPTS (k : Int) : Option String :=
  if k = 1 then some SINCERE_PROMPT
  else if k = 2 then some FLATTERY_PROMPT
  else if k = 3 then some GENERIC_PROMPT
  else none

/-! ### The request/response plumbing of `app.py` -/

/-- Pydantic model `ChatTurn`: one turn of the caller-supplied history. -/
structure ChatTurn where
  role : String
  content : String
deriving DecidableEq

/-- Pydantic model `ChatRequest`: `condition` is a Python `int`
(`1` = sincere, `2` = flattery, `3` = generic). -/
structure ChatRequest where
  condition : Int
  history : List ChatTurn
deriving DecidableEq

/-- One message of the list sent to the chat-completions API. -/
structure Message where
  role : String
  content : String
deriving DecidableEq

/-- The response body of the `/chat` route. -/
structure ChatResponse where
  reply : String
deriving DecidableEq

/-- The transport-level failure of the external model call (the Groq client
raising an exception). -/
inductive TransportError where
  | transport
deriving DecidableEq

/-- The `messages` list built inside `groq_chat`: it starts from the single
system message and appends one message per history turn, in order
(the Python `for` loop over `history`). -/
def buildMessages (system_prompt : String) (history : List ChatTurn) : List Message :=
  history.foldl (fun msgs m => msgs ++ [⟨m.role, m.content⟩])
    [⟨"system", system_prompt⟩]

/-- `groq_chat` of `app.py`, with the blocking API call abstracted as
`complete`; on success the text is stripped (`.strip()`), and a raised
exception propagates (`Except.error`). -/
def groq_chat (complete : List Message → Except TransportError String)
    (system_prompt : String) (history : List ChatTurn) :
    Except TransportError String :=
  (complete (buildMessages system_prompt history)).map pyStrip

/-- The `/chat` route of `app.py`: pick the system prompt with
`SYSTEM_PROMPTS.get(req.condition, SINCERE_PROMPT)`, delegate to
`groq_chat`, and wrap the reply. -/
def chat (complete : List Message → Except TransportError String)
    (req : ChatRequest) : Except TransportError ChatResponse :=
  (groq_chat complete ((SYSTEM_PROMPTS req.condition).getD SINCERE_PROMPT)
    req.history).map (fun r => ⟨r⟩)

/-- The system prompt `chat` selects for a given condition value. -/
def systemPromptFor (condition : Int) : String :=
  (SYSTEM_PROMPTS condition).getD SINCERE_PROMPT

/-- The first message (the system instructions) of the request `chat` sends
to the model for a given `ChatRequest`. -/
def systemMessageOf (req : ChatRequest) : Option Message :=
  (buildMessages (systemPromptFor req.condition) req.history).head?

/-! ### The Yes/No Classifier, modelled from the spec (absent from the code) -/

/-- Modelled from the spec: the WH-words of classifier rule 3; no
`classify` function exists in `app.py` (only the `YESNO_RULE` prompt text
delegates the yes/no gate to the model). -/
def WH_WORDS : List (List Char) :=
  ["why".data, "what".data, "how".data, "when".data, "where".data,
   "who".data, "which".data]

/-- Modelled from the spec: the yes/no auxiliaries of classifier rules 4–5. -/
def AUX_WORDS : List (List Char) :=
  ["is".data, "are".data, "was".data, "were".data, "am".data,
   "do".data, "does".data, "did".data, "can".data, "could".data,
   "will".data, "would".data, "shall".data, "should".data, "has".data,
   "have".data, "had".data, "may".data, "might".data, "must".data]

/-- Modelled from the spec: the guess markers of classifier rule 6. -/
def GUESS_WORDS : List (List Char) :=
  ["guess".data, "think".data, "suppose".data]

/-- Accumulator-based whitespace tokenizer: `cur` is the reversed current
token in progress. -/
def tokensAux (cur : List Char) : List Char → List (List Char)
  | [] => if cur = [] then [] else [cur.reverse]
  | c :: rest =>
    if c.isWhitespace then
      if cur = [] then tokensAux [] rest
      else cur.reverse :: tokensAux [] rest
    else tokensAux (c :: cur) rest

/-- Whitespace tokenization of a character list (Python `str.split()` with
no argument: maximal runs of non-whitespace). -/
def tokensOf (s : List Char) : List (List Char) := tokensAux [] s

/-- Modelled from the spec: classifier step 1 — trim whitespace, lower-case,
strip one trailing `?` if present. -/
def normalizeInput (s : List Char) : List Char :=
  let t := (trimChars s).map lowerChar
  if t.getLast? = some '?' then t.dropLast else t

/-- Modelled from the spec: the Yes/No Classifier `classify`, absent from
`app.py`; the spec's ordered rules 1–7 (normalize; empty → false; WH-word
first token → false; auxiliary first token → true; auxiliary anywhere →
true; guess marker anywhere → true; else false). -/
def classify (text : String) : Bool :=
  let n := normalizeInput text.data
  if n = [] then false
  else
    match tokensOf n with
    | [] => false
    | first :: rest =>
      if WH_WORDS.contains first then false
      else if AUX_WORDS.contains first then true
      else if (first :: rest).any (fun tk => AUX_WORDS.contains tk) then true
      else if (first :: rest).any (fun tk => GUESS_WORDS.contains tk) then true
      else false

/-! ### The Response Sanitizer, modelled from the spec (absent from the code) -/

/-- The expected mode of `sanitize`. -/
inductive SanitizeMode where
  | warningOnly
  | yesNo
deriving DecidableEq

/-- The character `'\n'`, tested through `BEq`. -/
def isNl (c : Char) : Bool := c == '\n'

/-- Remove the leftmost occurrence of `w` from `s` (no change when `w` does
not occur). -/
def dropOne (w : List Char) : List Char → List Char
  | [] => []
  | c :: rest =>
    if w <+: (c :: rest) then (c :: rest).drop w.length
    else c :: dropOne w rest

/-- Modelled from the spec: strip every occurrence of `w` from within the
text — repeat leftmost removal until no occurrence remains (the fuel is an
upper bound on the number of removals; `s.length` suffices for nonempty
`w`). -/
def stripAll (w : List Char) : Nat → List Char → List Char
  | 0, s => s
  | fuel + 1, s => if w <:+: s then stripAll w fuel (dropOne w s) else s

/-- The run of newlines at the head of `s`. -/
def nlRun (s : List Char) : Nat := (s.takeWhile isNl).length

/-- A run of `n` newlines after collapsing: a run of four or more newlines
(three or more blank lines) becomes two newlines (exactly one blank line);
shorter runs are kept. -/
def emitNl (n : Nat) : List Char := List.replicate (if 4 ≤ n then 2 else n) '\n'

/-- Modelled from the spec: collapse three-or-more consecutive blank lines
down to exactly one blank line — maximal runs of `k ≥ 4` newline characters
become two newline characters, all other characters are kept. -/
def collapseNl (s : List Char) : List Char :=
  match s with
  | [] => []
  | c :: rest =>
    if isNl c then
      emitNl (1 + nlRun rest) ++ collapseNl (rest.dropWhile isNl)
    else c :: collapseNl rest
termination_by s.length
decreasing_by
  · simp only [List.length_cons]
    have h : (rest.dropWhile isNl).length ≤ rest.length :=
      (List.dropWhile_sublist _).length_le
    omega
  · simp only [List.length_cons]
    omega

/-- Modelled from the spec: the Response Sanitizer `sanitize`, absent from
`app.py`.  In `warning-only` mode the output must equal the fixed warning
string exactly (anything else is replaced wholesale); in `yes-no` mode every
occurrence of the warning sentence is stripped from within the text and
runs of three-or-more blank lines are collapsed to one. -/
def sanitize (raw : String) (mode : SanitizeMode) : String :=
  match mode with
  | .warningOnly => if raw = WARNING_TEXT then raw else WARNING_TEXT
  | .yesNo =>
    String.mk (collapseNl (stripAll WARNING_TEXT.data raw.data.length raw.data))

/-! ### The Dialogue Session Controller, modelled from the spec (absent from the code) -/

/-- The feedback condition of a session. -/
inductive Condition where
  | sincere
  | flattery
  | neutral
deriving DecidableEq

/-- The phases of the controller state machine (`Done` is the terminal
phase after all puzzles are exhausted). -/
inductive Phase where
  | Introducing
  | AwaitingInput
  | Answered
  | Concluding
  | Done
deriving DecidableEq

/-- Modelled from the spec: the Session record owned by the controller. -/
structure Session where
  condition : Condition
  active_puzzle_id : Nat
  questions_asked_on_active_puzzle : Nat
  phase : Phase
deriving DecidableEq

/-- The puzzle texts produced on introduction and on reveal — external
configuration data (the Puzzle Catalog), opaque to the controller logic. -/
structure PuzzleTexts where
  introText : Nat → String
  revealText : Nat → String

/-- The catalog holds the 3 situational puzzles. -/
def NUM_PUZZLES : Nat := 3

/-- Modelled from the spec: the `Answered` resolution — with
`questions_asked_on_active_puzzle = 10` or a fully correct guess the
controller moves to `Concluding`, otherwise back to `AwaitingInput`. -/
def resolveAnswered (s : Session) (guessCorrect : Bool) : Session :=
  if s.questions_asked_on_active_puzzle = 10 ∨ guessCorrect = true then
    ⟨s.condition, s.active_puzzle_id, s.questions_asked_on_active_puzzle, .Concluding⟩
  else
    ⟨s.condition, s.active_puzzle_id, s.questions_asked_on_active_puzzle, .AwaitingInput⟩

/-- Modelled from the spec: one processed turn of the Dialogue Session
Controller, absent from `app.py`.  `guessCorrect` is the verdict of the
compatibility rules on the participant's guess and `modelText` the raw
model output, both supplied by the environment of the controller. -/
def step (cat : PuzzleTexts) (s : Session) (input : String)
    (guessCorrect : Bool) (modelText : String) : Session × String :=
  match s.phase with
  | .Introducing =>
    (⟨s.condition, s.active_puzzle_id, s.questions_asked_on_active_puzzle, .AwaitingInput⟩,
     cat.introText s.active_puzzle_id)
  | .AwaitingInput =>
    if classify input = false then (s, WARNING_TEXT)
    else
      (resolveAnswered
        ⟨s.condition, s.active_puzzle_id, s.questions_asked_on_active_puzzle + 1, .Answered⟩
        guessCorrect,
       sanitize modelText .yesNo)
  | .Answered => (resolveAnswered s guessCorrect, sanitize modelText .yesNo)
  | .Concluding =>
    if s.active_puzzle_id + 1 < NUM_PUZZLES then
      (⟨s.condition, s.active_puzzle_id + 1, 0, .Introducing⟩,
       cat.revealText s.active_puzzle_id)
    else
      (⟨s.condition, s.active_puzzle_id, s.questions_asked_on_active_puzzle, .Done⟩,
       CLOSING_TEXT)
  | .Done => (s, CLOSING_TEXT)

/-- The initial session of a freshly created experiment: first puzzle, no
question asked, introduction pending. -/
def initSession (cond : Condition) : Session := ⟨cond, 0, 0, .Introducing⟩

/-- The sessions reachable by the controller from the initial session under
arbitrary inputs, guess verdicts and model outputs. -/
inductive Reachable (cat : PuzzleTexts) (cond : Condition) : Session → Prop where
  | init : Reachable cat cond (initSession cond)
  | next : ∀ {s : Session} (input : String) (guessCorrect : Bool) (modelText : String),
      Reachable cat cond s →
      Reachable cat cond (step cat s input guessCorrect modelText).1

/-! ### Substring occurrence, on the character lists underlying strings -/

/-- `w` occurs contiguously inside `s`. -/
def strInfix (w s : String) : Prop := w.data <:+: s.data

/-- `s` contains four consecutive newline characters (three or more
consecutive blank lines). -/
def hasRun4 : List Char → Bool
  | a :: b :: c :: d :: rest =>
    (isNl a && isNl b && isNl c && isNl d) || hasRun4 (b :: c :: d :: rest)
  | _ => false

/-! ### Helper lemmas -/

theorem strInfix_self (w : String) : strInfix w w := List.infix_rfl

theorem strInfix_appendL (a b w : String) (h : strInfix w b) : strInfix w (a ++ b) := by
  obtain ⟨s, t, hst⟩ := h
  exact ⟨a.data ++ s, t, by rw [String.data_append, ← hst]; simp⟩

theorem strInfix_appendR (a b w : String) (h : strInfix w a) : strInfix w (a ++ b) := by
  obtain ⟨s, t, hst⟩ := h
  exact ⟨s, t ++ b.data, by rw [String.data_append, ← hst]; simp⟩

theorem strInfix_trans (a b c : String) (h1 : strInfix a b) (h2 : strInfix b c) :
    strInfix a c := List.IsInfix.trans h1 h2

theorem warning_in_yesno : strInfix WARNING_TEXT YESNO_RULE := by
  unfold YESNO_RULE
  exact strInfix_appendR _ _ _ (strInfix_appendR _ _ _
    (strInfix_appendL _ _ _ (strInfix_self _)))

theorem closing_in_header : strInfix CLOSING_TEXT PROMPT_HEADER := by
  unfold PROMPT_HEADER
  exact strInfix_appendR _ _ _ (strInfix_appendR _ _ _
    (strInfix_appendL _ _ _ (strInfix_self _)))

theorem yesno_in_sincere : strInfix YESNO_RULE SINCERE_PROMPT := by
  unfold SINCERE_PROMPT
  exact strInfix_appendR _ _ _ (strInfix_appendR _ _ _
    (strInfix_appendL _ _ _ (strInfix_self _)))

theorem yesno_in_flattery : strInfix YESNO_RULE FLATTERY_PROMPT := by
  unfold FLATTERY_PROMPT
  exact strInfix_appendR _ _ _ (strInfix_appendR _ _ _
    (strInfix_appendL _ _ _ (strInfix_self _)))

theorem yesno_in_generic : strInfix YESNO_RULE GENERIC_PROMPT := by
  unfold GENERIC_PROMPT
  exact strInfix_appendR _ _ _ (strInfix_appendR _ _ _
    (strInfix_appendL _ _ _ (strInfix_self _)))

theorem header_in_sincere : strInfix PROMPT_HEADER SINCERE_PROMPT := by
  unfold SINCERE_PROMPT
  exact strInfix_appendR _ _ _ (strInfix_appendR _ _ _ (strInfix_appendR _ _ _
    (strInfix_appendR _ _ _ (strInfix_appendR _ _ _ (strInfix_self _)))))

theorem header_in_flattery : strInfix PROMPT_HEADER FLATTERY_PROMPT := by
  unfold FLATTERY_PROMPT
  exact strInfix_appendR _ _ _ (strInfix_appendR _ _ _ (strInfix_appendR _ _ _
    (strInfix_appendR _ _ _ (strInfix_appendR _ _ _ (strInfix_self _)))))

theorem header_in_generic : strInfix PROMPT_HEADER GENERIC_PROMPT := by
  unfold GENERIC_PROMPT
  exact strInfix_appendR _ _ _ (strInfix_appendR _ _ _ (strInfix_appendR _ _ _
    (strInfix_appendR _ _ _ (strInfix_appendR _ _ _ (strInfix_self _)))))

theorem joined_in_flatguide : strInfix (joinQuoted FLATTERY_PHRASES) FLATTERY_GUIDE := by
  unfold FLATTERY_GUIDE
  exact strInfix_appendR _ _ _ (strInfix_appendR _ _ _ (strInfix_appendR _ _ _
    (strInfix_appendR _ _ _ (strInfix_appendR _ _ _
      (strInfix_appendL _ _ _ (strInfix_self _))))))

theorem flatguide_in_flattery : strInfix FLATTERY_GUIDE FLATTERY_PROMPT := by
  unfold FLATTERY_PROMPT
  exact strInfix_appendR _ _ _ (strInfix_appendL _ _ _ (strInfix_self _))

theorem joined_in_flattery : strInfix (joinQuoted FLATTERY_PHRASES) FLATTERY_PROMPT :=
  strInfix_trans _ _ _ joined_in_flatguide flatguide_in_flattery

theorem phrase_in_joinQuoted (p : String) (ps : List String) (hp : p ∈ ps) :
    strInfix p (joinQuoted ps) := by
  induction ps with
  | nil => cases hp
  | cons q rest ih =>
    rcases List.mem_cons.mp hp with rfl | hmem
    · cases rest with
      | nil =>
        simp only [joinQuoted]
        apply strInfix_appendR
        exact strInfix_appendL _ _ _ (strInfix_self _)
      | cons r rest' =>
        simp only [joinQuoted]
        apply strInfix_appendR
        apply strInfix_appendR
        exact strInfix_appendL _ _ _ (strInfix_self _)
    · cases rest with
      | nil => cases hmem
      | cons r rest' =>
        simp only [joinQuoted]
        exact strInfix_appendL _ _ _ (ih hmem)

theorem warning_in_prompt (p : String)
    (hp : p = SINCERE_PROMPT ∨ p = FLATTERY_PROMPT ∨ p = GENERIC_PROMPT) :
    strInfix WARNING_TEXT p := by
  rcases hp with rfl | rfl | rfl
  · exact strInfix_trans _ _ _ warning_in_yesno yesno_in_sincere
  · exact strInfix_trans _ _ _ warning_in_yesno yesno_in_flattery
  · exact strInfix_trans _ _ _ warning_in_yesno yesno_in_generic

theorem buildMessages_foldl (hist : List ChatTurn) (acc : List Message) :
    hist.foldl (fun msgs m => msgs ++ [⟨m.role, m.content⟩]) acc
      = acc ++ hist.map (fun m => ⟨m.role, m.content⟩) := by
  induction hist generalizing acc with
  | nil => simp
  | cons h t ih => simp [List.foldl_cons, ih]

theorem buildMessages_eq (sys : String) (hist : List ChatTurn) :
    buildMessages sys hist
      = Message.mk "system" sys :: hist.map (fun m => Message.mk m.role m.content) := by
  unfold buildMessages
  rw [buildMessages_foldl]
  rfl

theorem systemPromptFor_cases (c : Int) :
    systemPromptFor c = SINCERE_PROMPT ∨ systemPromptFor c = FLATTERY_PROMPT ∨
      systemPromptFor c = GENERIC_PROMPT := by
  simp only [systemPromptFor, SYSTEM_PROMPTS]
  split_ifs <;> simp

/-! ### Claim theorems on the code of `app.py` -/

/-- C9 (confirmed): for every model call, the request sent to the language
model consists of the system instructions as the first message, followed by
every turn of the caller-supplied history in its original order, with each
turn's speaker role and text preserved unchanged. -/
theorem C9_request_shape :
    ∀ (system_prompt : String) (history : List ChatTurn)
      (complete : List Message → Except TransportError String),
    buildMessages system_prompt history
      = Message.mk "system" system_prompt ::
          history.map (fun m => Message.mk m.role m.content) ∧
    groq_chat complete system_prompt history
      = (complete (Message.mk "system" system_prompt ::
          history.map (fun m => Message.mk m.role m.content))).map pyStrip := by
  intro sys hist complete
  refine ⟨buildMessages_eq sys hist, ?_⟩
  unfold groq_chat
  rw [buildMessages_eq]

/-- C10 (confirmed): for any two `/chat` requests with the same condition
value, the system instructions passed to the language model are identical:
the system message is determined by the condition alone and is always one of
the three fixed constant prompts, independent of the history. -/
theorem C10_system_prompt_only_depends_on_condition :
    (∀ r1 r2 : ChatRequest, r1.condition = r2.condition →
       systemMessageOf r1 = systemMessageOf r2) ∧
    (∀ req : ChatRequest,
       systemMessageOf req
         = some (Message.mk "system" (systemPromptFor req.condition))) ∧
    (∀ c : Int, systemPromptFor c = SINCERE_PROMPT ∨
       systemPromptFor c = FLATTERY_PROMPT ∨ systemPromptFor c = GENERIC_PROMPT) := by
  have hmsg : ∀ req : ChatRequest,
      systemMessageOf req
        = some (Message.mk "system" (systemPromptFor req.condition)) := by
    intro req
    unfold systemMessageOf
    rw [buildMessages_eq]
    rfl
  refine ⟨?_, hmsg, systemPromptFor_cases⟩
  intro r1 r2 h
  rw [hmsg r1, hmsg r2, h]

/-- C10 witness: two requests with condition 2 and different histories get
the same system instructions. -/
theorem C10_witness :
    systemMessageOf ⟨2, []⟩ = systemMessageOf ⟨2, [⟨"user", "hi"⟩]⟩ :=
  C10_system_prompt_only_depends_on_condition.1 _ _ rfl

/-- C4 (confirmed for the condition field): for every request whose condition
is outside the valid key set, processing does not fail — the dict lookup
falls back to the sincere default and `/chat` behaves exactly as it does for
condition 1.  (The `ChatRequest` carries no puzzle id, so there is no
out-of-range puzzle id to clamp.) -/
theorem C4_invalid_condition_clamps_to_sincere
    (complete : List Message → Except TransportError String) (req : ChatRequest)
    (h1 : req.condition ≠ 1) (h2 : req.condition ≠ 2) (h3 : req.condition ≠ 3) :
    systemPromptFor req.condition = SINCERE_PROMPT ∧
    chat complete req = chat complete ⟨1, req.history⟩ := by
  have hs : SYSTEM_PROMPTS req.condition = none := by
    simp only [SYSTEM_PROMPTS, if_neg h1, if_neg h2, if_neg h3]
  constructor
  · simp [systemPromptFor, hs]
  · unfold chat groq_chat
    rw [hs]
    simp [SYSTEM_PROMPTS]

/-- C4 witness: condition 7 is processed like condition 1. -/
theorem C4_witness :
    systemPromptFor ((⟨7, []⟩ : ChatRequest).condition) = SINCERE_PROMPT ∧
    chat (fun _ => Except.ok "ok") ⟨7, []⟩ = chat (fun _ => Except.ok "ok") ⟨1, []⟩ :=
  C4_invalid_condition_clamps_to_sincere _ ⟨7, []⟩ (by decide) (by decide) (by decide)

/-- C5 counterexample: when the model call succeeds with empty text, `/chat`
returns a normal (non-error) reply with empty text — it does not surface a
`ModelUnavailable`-style failure as the claim states. -/
theorem C5_counterexample :
    chat (fun _ => Except.ok "") ⟨1, [⟨"user", "Is it cold?"⟩]⟩
      = Except.ok ⟨""⟩ ∧
    Except.ok (⟨""⟩ : ChatResponse) ≠ Except.error TransportError.transport :=
  ⟨rfl, fun h => Except.noConfusion h⟩

/-- C5 (corrected): a failing transport call propagates as an error to the
caller (and the code keeps no session state that could be advanced), but a
model call returning empty text yields a normal reply whose text is the
empty string, not a failure. -/
theorem C5_transport_error_propagates_and_empty_is_normal_reply :
    (∀ (complete : List Message → Except TransportError String)
       (req : ChatRequest) (e : TransportError),
       complete (buildMessages (systemPromptFor req.condition) req.history)
         = Except.error e →
       chat complete req = Except.error e) ∧
    (∀ (complete : List Message → Except TransportError String)
       (req : ChatRequest),
       complete (buildMessages (systemPromptFor req.condition) req.history)
         = Except.ok "" →
       chat complete req = Except.ok ⟨""⟩) := by
  constructor
  · intro complete req e h
    unfold chat groq_chat
    rw [show (SYSTEM_PROMPTS req.condition).getD SINCERE_PROMPT
          = systemPromptFor req.condition from rfl, h]
    rfl
  · intro complete req h
    unfold chat groq_chat
    rw [show (SYSTEM_PROMPTS req.condition).getD SINCERE_PROMPT
          = systemPromptFor req.condition from rfl, h]
    rfl

/-- C5 witness: a transport error on a concrete request propagates. -/
theorem C5_witness :
    chat (fun _ => Except.error TransportError.transport) ⟨1, []⟩
      = Except.error TransportError.transport :=
  C5_transport_error_propagates_and_empty_is_normal_reply.1 _ ⟨1, []⟩
    TransportError.transport rfl

/-- C1 counterexample: on the input `"How did the dog cross?"` — classified
`false` by the spec's classifier — the code still calls the model and
returns the model's output (here `"FOO"`) instead of the fixed warning
string, refuting the claimed short-circuit. -/
theorem C1_counterexample :
    classify "How did the dog cross?" = false ∧
    chat (fun _ => Except.ok "FOO") ⟨1, [⟨"user", "How did the dog cross?"⟩]⟩
      = Except.ok ⟨"FOO"⟩ ∧
    ("FOO" : String) ≠ WARNING_TEXT :=
  ⟨by decide, rfl, by decide⟩

/-- C1 (corrected): the code has no classifier short-circuit — `/chat`
always delegates to the model and replies with the stripped model output;
the yes/no gate exists only as the `YESNO_RULE` instruction text, which
contains the fixed warning sentence and is part of every system prompt. -/
theorem C1_chat_always_delegates
    (complete : List Message → Except TransportError String) (req : ChatRequest)
    (s : String)
    (h : complete (buildMessages (systemPromptFor req.condition) req.history)
           = Except.ok s) :
    chat complete req = Except.ok ⟨pyStrip s⟩ ∧
    strInfix WARNING_TEXT (systemPromptFor req.condition) := by
  constructor
  · unfold chat groq_chat
    rw [show (SYSTEM_PROMPTS req.condition).getD SINCERE_PROMPT
          = systemPromptFor req.condition from rfl, h]
    rfl
  · exact warning_in_prompt _ (systemPromptFor_cases req.condition)

/-- C1 witness: a concrete successful model call is passed through. -/
theorem C1_witness :
    chat (fun _ => Except.ok "YES.") ⟨1, []⟩ = Except.ok ⟨pyStrip "YES."⟩ ∧
    strInfix WARNING_TEXT (systemPromptFor ((⟨1, []⟩ : ChatRequest).condition)) :=
  C1_chat_always_delegates _ ⟨1, []⟩ "YES." rfl

/-- C7 (confirmed): the fixed literal strings of the contract are reproduced
byte-for-byte where they apply — the warning sentence occurs in `YESNO_RULE`
and in all three system prompts, the closing sentence occurs in all three
system prompts, and the flattery list enumerates exactly 10 fixed phrases,
each occurring verbatim in `FLATTERY_PROMPT`. -/
theorem C7_fixed_literals :
    strInfix WARNING_TEXT YESNO_RULE ∧
    strInfix WARNING_TEXT SINCERE_PROMPT ∧
    strInfix WARNING_TEXT FLATTERY_PROMPT ∧
    strInfix WARNING_TEXT GENERIC_PROMPT ∧
    strInfix CLOSING_TEXT SINCERE_PROMPT ∧
    strInfix CLOSING_TEXT FLATTERY_PROMPT ∧
    strInfix CLOSING_TEXT GENERIC_PROMPT ∧
    FLATTERY_PHRASES.length = 10 ∧
    (∀ p ∈ FLATTERY_PHRASES, strInfix p FLATTERY_PROMPT) := by
  refine ⟨warning_in_yesno, warning_in_prompt _ (Or.inl rfl),
    warning_in_prompt _ (Or.inr (Or.inl rfl)),
    warning_in_prompt _ (Or.inr (Or.inr rfl)),
    strInfix_trans _ _ _ closing_in_header header_in_sincere,
    strInfix_trans _ _ _ closing_in_header header_in_flattery,
    strInfix_trans _ _ _ closing_in_header header_in_generic,
    rfl, ?_⟩
  intro p hp
  exact strInfix_trans _ _ _ (phrase_in_joinQuoted p _ hp) joined_in_flattery

/-- C7 witness: the first flattery phrase occurs verbatim in the flattery
prompt. -/
theorem C7_witness :
    strInfix "That was an amazing attempt — you have a natural talent for this kind of puzzle!"
      FLATTERY_PROMPT :=
  C7_fixed_literals.2.2.2.2.2.2.2.2 _ (List.mem_cons_self _ _)

/-! ### Claim theorems about the controller modelled from the spec -/

/-- C8 (confirmed against the spec model): once the session's phase is
`Done`, processing any further input yields the closing message and leaves
the state unchanged — `Done` is terminal and the reply is the same for every
subsequent input. -/
theorem C8_done_is_terminal (cat : PuzzleTexts) (s : Session) (input : String)
    (guessCorrect : Bool) (modelText : String) (h : s.phase = Phase.Done) :
    step cat s input guessCorrect modelText = (s, CLOSING_TEXT) := by
  unfold step
  rw [h]

/-- C8 witness: a concrete `Done` session is left unchanged with the closing
message as reply. -/
theorem C8_witness :
    step ⟨fun _ => "", fun _ => ""⟩ ⟨Condition.sincere, 2, 3, Phase.Done⟩
        "anything" false "model"
      = (⟨Condition.sincere, 2, 3, Phase.Done⟩, CLOSING_TEXT) :=
  C8_done_is_terminal _ _ _ _ _ rfl

theorem step_preserves_bound (cat : PuzzleTexts) (s : Session) (input : String)
    (c : Bool) (m : String)
    (h1 : s.questions_asked_on_active_puzzle ≤ 10)
    (h2 : (s.phase = Phase.Introducing ∨ s.phase = Phase.AwaitingInput) →
          s.questions_asked_on_active_puzzle < 10) :
    (step cat s input c m).1.questions_asked_on_active_puzzle ≤ 10 ∧
    (((step cat s input c m).1.phase = Phase.Introducing ∨
      (step cat s input c m).1.phase = Phase.AwaitingInput) →
      (step cat s input c m).1.questions_asked_on_active_puzzle < 10) := by
  obtain ⟨cond, pid, q, ph⟩ := s
  cases ph <;>
    simp only [step, resolveAnswered] <;>
    (try split_ifs) <;>
    simp_all <;>
    omega

theorem reachable_bound (cat : PuzzleTexts) (cond : Condition) (s : Session)
    (h : Reachable cat cond s) :
    s.questions_asked_on_active_puzzle ≤ 10 ∧
    ((s.phase = Phase.Introducing ∨ s.phase = Phase.AwaitingInput) →
      s.questions_asked_on_active_puzzle < 10) := by
  induction h with
  | init => exact ⟨by simp [initSession], by simp [initSession]⟩
  | next input c m hr ih => exact step_preserves_bound _ _ _ _ _ ih.1 ih.2

/-- C3 (confirmed against the spec model): in every reachable session state
`questions_asked_on_active_puzzle ≤ 10`, and processing the 10th yes/no
question (count 9, classified `true`) transitions the phase to `Concluding`
regardless of the guess verdict and model output. -/
theorem C3_question_budget :
    (∀ (cat : PuzzleTexts) (cond : Condition) (s : Session),
       Reachable cat cond s → s.questions_asked_on_active_puzzle ≤ 10) ∧
    (∀ (cat : PuzzleTexts) (s : Session) (input : String) (c : Bool) (m : String),
       s.phase = Phase.AwaitingInput → classify input = true →
       s.questions_asked_on_active_puzzle = 9 →
       (step cat s input c m).1.phase = Phase.Concluding) := by
  constructor
  · intro cat cond s h
    exact (reachable_bound cat cond s h).1
  · intro cat s input c m hph hcl hq
    obtain ⟨cond, pid, q, ph⟩ := s
    simp only at hph hq
    subst hph
    subst hq
    simp [step, resolveAnswered, hcl]

/-- C3 witness: the bound holds at the initial session, and a concrete
session with 9 questions asked moves to `Concluding` on the next yes/no
question. -/
theorem C3_witness :
    (initSession Condition.sincere).questions_asked_on_active_puzzle ≤ 10 ∧
    (step ⟨fun _ => "", fun _ => ""⟩ ⟨Condition.sincere, 0, 9, Phase.AwaitingInput⟩
        "Is it cold" false "m").1.phase = Phase.Concluding :=
  ⟨C3_question_budget.1 ⟨fun _ => "", fun _ => ""⟩ Condition.sincere _ Reachable.init,
   C3_question_budget.2 _ _ _ _ _ rfl (by decide) rfl⟩

/-! ### Claim theorems about the classifier modelled from the spec -/

theorem lowerChar_idem (c : Char) : lowerChar (lowerChar c) = lowerChar c := by
  have h : ∀ d : Char, lowerChar d = d ∨ lowerChar (lowerChar d) = lowerChar d := by
    intro d
    unfold lowerChar
    split
    all_goals try (right; decide)
    · left; rfl
  rcases h c with h1 | h2
  · rw [h1, h1]
  · exact h2

theorem lowerChar_ws (c : Char) : (lowerChar c).isWhitespace = c.isWhitespace := by
  unfold lowerChar
  split <;> rfl

theorem lowerChar_qmark (c : Char) : (lowerChar c = '?') ↔ (c = '?') := by
  unfold lowerChar
  split <;> simp_all

theorem map_lower_idem (l : List Char) :
    (l.map lowerChar).map lowerChar = l.map lowerChar := by
  rw [List.map_map]
  exact List.map_congr_left (fun a _ => lowerChar_idem a)

theorem trim_map_lower (s : List Char) :
    trimChars (s.map lowerChar) = (trimChars s).map lowerChar := by
  have hws : (Char.isWhitespace ∘ lowerChar) = Char.isWhitespace := funext lowerChar_ws
  simp only [trimChars, List.dropWhile_map, List.reverse_map, hws]

theorem normalize_map_lower (s : List Char) :
    normalizeInput (s.map lowerChar) = normalizeInput s := by
  simp only [normalizeInput]
  rw [trim_map_lower, map_lower_idem]

theorem classify_case_insensitive (t : String) :
    classify (String.mk (t.data.map lowerChar)) = classify t := by
  unfold classify
  rw [show (String.mk (t.data.map lowerChar)).data = t.data.map lowerChar from rfl]
  rw [normalize_map_lower]

theorem normalize_nonempty_of_tokens (n : List Char) (w : List Char)
    (rest : List (List Char)) (h : tokensOf n = w :: rest) : n ≠ [] := by
  intro h0
  rw [h0] at h
  simp [tokensOf, tokensAux] at h

theorem aux_not_wh (w : List Char) (h : AUX_WORDS.contains w = true) :
    WH_WORDS.contains w = false := by
  have hm : w ∈ AUX_WORDS := by
    simpa using h
  fin_cases hm <;> decide

/-- C2 (confirmed against the spec model): the classifier `classify` is a
pure total function, case-insensitive, deterministic, and follows the
spec's ordered rules: a WH-word first token classifies `false`, a yes/no
auxiliary first token classifies `true`. -/
theorem C2_classifier_rules :
    (∀ t : String, classify (String.mk (t.data.map lowerChar)) = classify t) ∧
    (∀ (t : String) (w : List Char) (rest : List (List Char)),
       tokensOf (normalizeInput t.data) = w :: rest →
       WH_WORDS.contains w = true → classify t = false) ∧
    (∀ (t : String) (w : List Char) (rest : List (List Char)),
       tokensOf (normalizeInput t.data) = w :: rest →
       AUX_WORDS.contains w = true → classify t = true) := by
  refine ⟨classify_case_insensitive, ?_, ?_⟩
  · intro t w rest htok hwh
    have hne : normalizeInput t.data ≠ [] := normalize_nonempty_of_tokens _ _ _ htok
    have hm : w ∈ WH_WORDS := by simpa using hwh
    unfold classify
    rw [if_neg hne, htok]
    simp [hm]
  · intro t w rest htok haux
    have hne : normalizeInput t.data ≠ [] := normalize_nonempty_of_tokens _ _ _ htok
    have hmem : w ∈ AUX_WORDS := by simpa using haux
    have hnot : w ∉ WH_WORDS := by simpa using aux_not_wh w haux
    unfold classify
    rw [if_neg hne, htok]
    simp [hnot, hmem]

/-- C2 witness: concrete classifications — a WH-question is rejected, an
auxiliary-first question accepted, and case is irrelevant. -/
theorem C2_witness :
    classify (String.mk ("How did the dog cross?".data.map lowerChar))
      = classify "How did the dog cross?" ∧
    classify "How did the dog cross?" = false ∧
    classify "Is it cold" = true :=
  ⟨C2_classifier_rules.1 _,
   C2_classifier_rules.2.1 "How did the dog cross?" "how".data
     ["did".data, "the".data, "dog".data, "cross".data] (by decide) (by decide),
   C2_classifier_rules.2.2 "Is it cold" "is".data
     ["it".data, "cold".data] (by decide) (by decide)⟩

/-! ### Sanitizer lemmas: stripping the warning sentence -/

theorem dropOne_length (w : List Char) (hw : w ≠ []) :
    ∀ s : List Char, w <:+: s → (dropOne w s).length + w.length = s.length := by
  intro s
  induction s with
  | nil => intro h; exact absurd (List.eq_nil_of_infix_nil h) hw
  | cons c rest ih =>
    intro h
    unfold dropOne
    split_ifs with hp
    · have hle : w.length ≤ (c :: rest).length := hp.length_le
      simp only [List.length_drop, List.length_cons] at *
      omega
    · have h' : w <:+: rest := by
        rcases List.infix_cons_iff.mp h with h1 | h2
        · exact absurd h1 hp
        · exact h2
      have hrec := ih h'
      simp only [List.length_cons]
      omega

theorem stripAll_no_infix (w : List Char) (hw : w ≠ []) :
    ∀ (fuel : Nat) (s : List Char), s.length ≤ fuel →
      ¬ w <:+: stripAll w fuel s := by
  intro fuel
  induction fuel with
  | zero =>
    intro s hs
    have hnil : s = [] := List.length_eq_zero.mp (Nat.le_zero.mp hs)
    subst hnil
    intro h
    exact hw (List.eq_nil_of_infix_nil h)
  | succ fuel ih =>
    intro s hs
    unfold stripAll
    split_ifs with h
    · apply ih
      have hlen := dropOne_length w hw s h
      have hwlen : 1 ≤ w.length := List.length_pos.mpr hw
      omega
    · exact h

theorem stripAll_id_of_no_occurrence (w : List Char) (fuel : Nat) (s : List Char)
    (h : ¬ w <:+: s) : stripAll w fuel s = s := by
  cases fuel with
  | zero => rfl
  | succ fuel => simp [stripAll, h]

/-! ### Sanitizer lemmas: blank-line collapsing -/

theorem hasRun4_quad (a b c m : Char) (rest : List Char) :
    hasRun4 (a :: b :: c :: m :: rest)
      = ((isNl a && isNl b && isNl c && isNl m) || hasRun4 (b :: c :: m :: rest)) := rfl

theorem hasRun4_cons_false (a : Char) (T : List Char) (ha : isNl a = false)
    (hT : hasRun4 T = false) : hasRun4 (a :: T) = false := by
  rcases T with _ | ⟨b, _ | ⟨c, _ | ⟨d, rest⟩⟩⟩ <;> simp_all [hasRun4]

theorem hasRun4_tail (a : Char) (T : List Char) (h : hasRun4 (a :: T) = false) :
    hasRun4 T = false := by
  rcases T with _ | ⟨b, _ | ⟨c, _ | ⟨d, rest⟩⟩⟩ <;> simp_all [hasRun4]

theorem hasRun4_nl_cons (T : List Char) (hT : hasRun4 T = false)
    (hh : ∀ t T', T = t :: T' → isNl t = false) :
    hasRun4 ('\n' :: T) = false := by
  rcases T with _ | ⟨t, T'⟩
  · rfl
  · have ht : isNl t = false := hh t T' rfl
    rcases T' with _ | ⟨u, T''⟩
    · rfl
    · rcases T'' with _ | ⟨v, T3⟩
      · rfl
      · rw [hasRun4_quad]
        simp [ht, hT]

theorem hasRun4_nl2_cons (T : List Char) (hT : hasRun4 T = false)
    (hh : ∀ t T', T = t :: T' → isNl t = false) :
    hasRun4 ('\n' :: '\n' :: T) = false := by
  rcases T with _ | ⟨t, T'⟩
  · rfl
  · have ht : isNl t = false := hh t T' rfl
    rcases T' with _ | ⟨u, T''⟩
    · rfl
    · have h1 : hasRun4 ('\n' :: t :: u :: T'') = false := hasRun4_nl_cons _ hT hh
      rw [hasRun4_quad]
      simp [ht, h1]

theorem hasRun4_nl3_cons (T : List Char) (hT : hasRun4 T = false)
    (hh : ∀ t T', T = t :: T' → isNl t = false) :
    hasRun4 ('\n' :: '\n' :: '\n' :: T) = false := by
  rcases T with _ | ⟨t, T'⟩
  · rfl
  · have ht : isNl t = false := hh t T' rfl
    have h2 : hasRun4 ('\n' :: '\n' :: t :: T') = false := hasRun4_nl2_cons _ hT hh
    rw [hasRun4_quad]
    simp [ht, h2]

theorem hasRun4_replicate_prepend (k : Nat) (hk : k ≤ 3) (T : List Char)
    (hT : hasRun4 T = false) (hh : ∀ t T', T = t :: T' → isNl t = false) :
    hasRun4 (List.replicate k '\n' ++ T) = false := by
  interval_cases k
  · simpa using hT
  · simpa using hasRun4_nl_cons T hT hh
  · simpa using hasRun4_nl2_cons T hT hh
  · simpa using hasRun4_nl3_cons T hT hh

theorem dropWhile_head_not (p : Char → Bool) (l : List Char) (t : Char)
    (T' : List Char) (h : l.dropWhile p = t :: T') : p t = false := by
  induction l with
  | nil => simp at h
  | cons a l ih =>
    rw [List.dropWhile_cons] at h
    split_ifs at h with hpa
    · exact ih h
    · cases h
      simpa using hpa

theorem takeWhile_nl_eq_replicate (l : List Char) :
    l.takeWhile isNl = List.replicate (nlRun l) '\n' := by
  induction l with
  | nil => rfl
  | cons a l ih =>
    by_cases ha : isNl a = true
    · have ha' : a = '\n' := by simpa [isNl] using ha
      subst ha'
      have h1 : ('\n' :: l).takeWhile isNl = '\n' :: l.takeWhile isNl := by
        rw [List.takeWhile_cons]
        simp [isNl]
      have h2 : nlRun ('\n' :: l) = nlRun l + 1 := by
        unfold nlRun
        rw [h1]
        simp
      rw [h1, h2, List.replicate_succ, ih]
    · have h1 : (a :: l).takeWhile isNl = [] := by
        rw [List.takeWhile_cons]
        simp [ha]
      have h2 : nlRun (a :: l) = 0 := by
        unfold nlRun
        rw [h1]
        rfl
      rw [h1, h2]
      rfl

theorem collapseNl_nil : collapseNl [] = [] := by
  simp [collapseNl]

theorem collapseNl_cons_not (c : Char) (rest : List Char) (hc : isNl c = false) :
    collapseNl (c :: rest) = c :: collapseNl rest := by
  simp [collapseNl, hc]

theorem collapseNl_cons_nl (rest : List Char) :
    collapseNl ('\n' :: rest)
      = emitNl (1 + nlRun rest) ++ collapseNl (rest.dropWhile isNl) := by
  simp [collapseNl, isNl]

theorem hasRun4_append_right (w u : List Char)
    (hv : hasRun4 (w ++ u) = false) : hasRun4 u = false := by
  induction w with
  | nil => simpa using hv
  | cons a w ih => exact ih (hasRun4_tail _ _ (by simpa using hv))

theorem hasRun4_of_suffix (u v : List Char) (h : u <:+ v)
    (hv : hasRun4 v = false) : hasRun4 u = false := by
  obtain ⟨w, hw⟩ := h
  exact hasRun4_append_right w u (by rw [hw]; exact hv)

theorem hasRun4_collapseNl_aux :
    ∀ (n : Nat) (s : List Char), s.length ≤ n →
      hasRun4 (collapseNl s) = false := by
  intro n
  induction n with
  | zero =>
    intro s hs
    have hnil : s = [] := List.length_eq_zero.mp (Nat.le_zero.mp hs)
    subst hnil
    rw [collapseNl_nil]
    rfl
  | succ n ih =>
    intro s hs
    rcases s with _ | ⟨c, rest⟩
    · rw [collapseNl_nil]; rfl
    · by_cases hc : isNl c = true
      · have hc' : c = '\n' := by simpa [isNl] using hc
        subst hc'
        rw [collapseNl_cons_nl]
        have hlt : (rest.dropWhile isNl).length ≤ n := by
          have h1 : (rest.dropWhile isNl).length ≤ rest.length :=
            (List.dropWhile_sublist _).length_le
          simp only [List.length_cons] at hs
          omega
        have hT : hasRun4 (collapseNl (rest.dropWhile isNl)) = false := ih _ hlt
        have hh : ∀ a T', collapseNl (rest.dropWhile isNl) = a :: T' →
            isNl a = false := by
          intro a T' hEq
          rcases htt : rest.dropWhile isNl with _ | ⟨b, t'⟩
          · rw [htt, collapseNl_nil] at hEq
            cases hEq
          · have hb : isNl b = false := dropWhile_head_not isNl rest b t' htt
            rw [htt, collapseNl_cons_not b t' hb] at hEq
            cases hEq
            exact hb
        have hm : (if 4 ≤ 1 + nlRun rest then 2 else 1 + nlRun rest) ≤ 3 := by
          split_ifs <;> omega
        unfold emitNl
        exact hasRun4_replicate_prepend _ hm _ hT hh
      · have hc' : isNl c = false := by simpa using hc
        rw [collapseNl_cons_not c rest hc']
        have hrest : hasRun4 (collapseNl rest) = false := by
          apply ih
          simp only [List.length_cons] at hs
          omega
        exact hasRun4_cons_false c _ hc' hrest

theorem hasRun4_collapseNl (s : List Char) : hasRun4 (collapseNl s) = false :=
  hasRun4_collapseNl_aux s.length s le_rfl

theorem collapseNl_id_aux :
    ∀ (n : Nat) (s : List Char), s.length ≤ n → hasRun4 s = false →
      collapseNl s = s := by
  intro n
  induction n with
  | zero =>
    intro s hs _
    have hnil : s = [] := List.length_eq_zero.mp (Nat.le_zero.mp hs)
    subst hnil
    exact collapseNl_nil
  | succ n ih =>
    intro s hs h
    rcases s with _ | ⟨c, rest⟩
    · exact collapseNl_nil
    · by_cases hc : isNl c = true
      · have hc' : c = '\n' := by simpa [isNl] using hc
        subst hc'
        rw [collapseNl_cons_nl]
        have hrun : nlRun rest ≤ 2 := by
          by_contra hgt
          push_neg at hgt
          obtain ⟨k, hk⟩ : ∃ k, nlRun rest = 3 + k := ⟨nlRun rest - 3, by omega⟩
          have htw := takeWhile_nl_eq_replicate rest
          have hsplit : rest = List.replicate (nlRun rest) '\n' ++ rest.dropWhile isNl := by
            rw [← htw]
            exact (List.takeWhile_append_dropWhile isNl rest).symm
          rw [hk, List.replicate_add] at hsplit
          rw [hsplit] at h
          rw [show (List.replicate 3 '\n' : List Char) = ['\n', '\n', '\n'] from rfl] at h
          rw [show (['\n', '\n', '\n'] ++ List.replicate k '\n' ++ rest.dropWhile isNl : List Char)
                = '\n' :: '\n' :: '\n' :: (List.replicate k '\n' ++ rest.dropWhile isNl) from by simp] at h
          rw [hasRun4_quad] at h
          simp [isNl] at h
        have hif : ¬ (4 ≤ 1 + nlRun rest) := by omega
        unfold emitNl
        rw [if_neg hif]
        have hsuffix : rest.dropWhile isNl <:+ rest := List.dropWhile_suffix _
        have hdw : hasRun4 (rest.dropWhile isNl) = false :=
          hasRun4_of_suffix _ _ hsuffix (hasRun4_tail _ _ h)
        have hlen : (rest.dropWhile isNl).length ≤ n := by
          have h1 : (rest.dropWhile isNl).length ≤ rest.length :=
            (List.dropWhile_sublist _).length_le
          simp only [List.length_cons] at hs
          omega
        rw [ih _ hlen hdw]
        rw [show 1 + nlRun rest = nlRun rest + 1 from by omega, List.replicate_succ]
        rw [List.cons_append, ← takeWhile_nl_eq_replicate rest,
          List.takeWhile_append_dropWhile]
      · have hc' : isNl c = false := by simpa using hc
        rw [collapseNl_cons_not c rest hc']
        rw [ih rest (by simp only [List.length_cons] at hs; omega) (hasRun4_tail _ _ h)]

theorem collapseNl_idem (s : List Char) : collapseNl (collapseNl s) = collapseNl s :=
  collapseNl_id_aux (collapseNl s).length _ le_rfl (hasRun4_collapseNl s)

theorem nlfree_prefix_of_prefix_collapse :
    ∀ (n : Nat) (w s : List Char), s.length ≤ n → (∀ c ∈ w, c ≠ '\n') →
      w <+: collapseNl s → w <+: s := by
  intro n
  induction n with
  | zero =>
    intro w s hs hw h
    have hnil : s = [] := List.length_eq_zero.mp (Nat.le_zero.mp hs)
    subst hnil
    rwa [collapseNl_nil] at h
  | succ n ih =>
    intro w s hs hw h
    rcases s with _ | ⟨c, rest⟩
    · rwa [collapseNl_nil] at h
    · by_cases hc : isNl c = true
      · have hc' : c = '\n' := by simpa [isNl] using hc
        subst hc'
        rw [collapseNl_cons_nl] at h
        rcases w with _ | ⟨d, w'⟩
        · exact List.nil_prefix
        · exfalso
          obtain ⟨m', hm'⟩ : ∃ m', (if 4 ≤ 1 + nlRun rest then 2 else 1 + nlRun rest)
              = m' + 1 := by
            refine ⟨(if 4 ≤ 1 + nlRun rest then 2 else 1 + nlRun rest) - 1, ?_⟩
            split_ifs <;> omega
          unfold emitNl at h
          rw [hm', List.replicate_succ, List.cons_append] at h
          have hd := (List.cons_prefix_cons.mp h).1
          exact hw d (List.mem_cons_self d w') hd
      · have hc' : isNl c = false := by simpa using hc
        rw [collapseNl_cons_not c rest hc'] at h
        rcases w with _ | ⟨d, w'⟩
        · exact List.nil_prefix
        · obtain ⟨hd, hw'⟩ := List.cons_prefix_cons.mp h
          subst hd
          have hrec : w' <+: rest := by
            refine ih w' rest ?_ (fun x hx => hw x (List.mem_cons_of_mem _ hx)) hw'
            simp only [List.length_cons] at hs
            omega
          exact List.cons_prefix_cons.mpr ⟨rfl, hrec⟩

theorem nlfree_infix_drop_replicate :
    ∀ (m : Nat) (w T : List Char), w ≠ [] → (∀ c ∈ w, c ≠ '\n') →
      w <:+: List.replicate m '\n' ++ T → w <:+: T := by
  intro m
  induction m with
  | zero => intro w T hne hw h; simpa using h
  | succ m ih =>
    intro w T hne hw h
    rw [List.replicate_succ, List.cons_append] at h
    rcases List.infix_cons_iff.mp h with h1 | h2
    · exfalso
      rcases w with _ | ⟨d, w'⟩
      · exact hne rfl
      · exact hw d (List.mem_cons_self _ _) (List.cons_prefix_cons.mp h1).1
    · exact ih w T hne hw h2

theorem nlfree_infix_collapse :
    ∀ (n : Nat) (w s : List Char), s.length ≤ n → w ≠ [] →
      (∀ c ∈ w, c ≠ '\n') → ¬ w <:+: s → ¬ w <:+: collapseNl s := by
  intro n
  induction n with
  | zero =>
    intro w s hs _ _ h
    have hnil : s = [] := List.length_eq_zero.mp (Nat.le_zero.mp hs)
    subst hnil
    rwa [collapseNl_nil]
  | succ n ih =>
    intro w s hs hne hw h hcon
    rcases s with _ | ⟨c, rest⟩
    · rw [collapseNl_nil] at hcon
      exact h hcon
    · by_cases hc : isNl c = true
      · have hc' : c = '\n' := by simpa [isNl] using hc
        subst hc'
        rw [collapseNl_cons_nl] at hcon
        have h2 : w <:+: collapseNl (rest.dropWhile isNl) := by
          unfold emitNl at hcon
          exact nlfree_infix_drop_replicate _ w _ hne hw hcon
        have hlen : (rest.dropWhile isNl).length ≤ n := by
          have h1 : (rest.dropWhile isNl).length ≤ rest.length :=
            (List.dropWhile_sublist _).length_le
          simp only [List.length_cons] at hs
          omega
        have hnot : ¬ w <:+: rest.dropWhile isNl := by
          intro hx
          apply h
          have h3 : rest.dropWhile isNl <:+ rest := List.dropWhile_suffix _
          exact List.infix_cons (List.IsInfix.trans hx h3.isInfix)
        exact ih w _ hlen hne hw hnot h2
      · have hc' : isNl c = false := by simpa using hc
        rw [collapseNl_cons_not c rest hc'] at hcon
        rcases List.infix_cons_iff.mp hcon with h1 | h2
        · have hpc : w <+: collapseNl (c :: rest) := by
            rwa [collapseNl_cons_not c rest hc']
          have hpre : w <+: c :: rest :=
            nlfree_prefix_of_prefix_collapse (c :: rest).length w _ le_rfl hw hpc
          exact h hpre.isInfix
        · have hnot : ¬ w <:+: rest := fun hx => h (List.infix_cons hx)
          have hlen : rest.length ≤ n := by
            simp only [List.length_cons] at hs
            omega
          exact ih w rest hlen hne hw hnot h2

/-! ### The sanitizer claim -/

theorem sanitize_yesNo_eq (x : String) :
    sanitize x SanitizeMode.yesNo
      = String.mk (collapseNl (stripAll WARNING_TEXT.data x.data.length x.data)) := rfl

/-- C6 (confirmed against the spec model): the Response Sanitizer is a pure
total function and is idempotent — for every input `x` and mode `m`,
`sanitize (sanitize x m) m = sanitize x m`. -/
theorem C6_sanitize_idempotent :
    ∀ (x : String) (m : SanitizeMode), sanitize (sanitize x m) m = sanitize x m := by
  intro x m
  cases m with
  | warningOnly =>
    have hval : sanitize x SanitizeMode.warningOnly = WARNING_TEXT := by
      unfold sanitize
      split_ifs with hx
      · exact hx
      · rfl
    rw [hval]
    unfold sanitize
    rw [if_pos rfl]
  | yesNo =>
    have hwne : WARNING_TEXT.data ≠ [] := by decide
    have hwnl : ∀ c ∈ WARNING_TEXT.data, c ≠ '\n' := by decide
    rw [sanitize_yesNo_eq x, sanitize_yesNo_eq]
    rw [show (String.mk (collapseNl (stripAll WARNING_TEXT.data x.data.length x.data))).data
          = collapseNl (stripAll WARNING_TEXT.data x.data.length x.data) from rfl]
    have hy : ¬ WARNING_TEXT.data <:+: stripAll WARNING_TEXT.data x.data.length x.data :=
      stripAll_no_infix _ hwne _ _ le_rfl
    have hz : ¬ WARNING_TEXT.data <:+:
        collapseNl (stripAll WARNING_TEXT.data x.data.length x.data) :=
      nlfree_infix_collapse _ _ _ le_rfl hwne hwnl hy
    rw [stripAll_id_of_no_occurrence _ _ _ hz]
    rw [collapseNl_idem]
